import Mathlib

/-!
Verification development for the 247 remote-control agent core:
the session-events persistence layer (`apps/agent/src/db/events`),
the `StreamJsonSession` structured-protocol backend, the heartbeat
endpoint and the environments store.

Machine integers (epoch-millisecond timestamps, durations, counts) are
modelled as `Int`/`Nat`; SQL REAL metric columns are value-agnostically
modelled as `Int` since the code never computes with them.  `ORDER BY`
is modelled by its contract (`OrderedReadOf`): a result is some
permutation of the rows sorted by the key — the queries name no
tie-break column and SQLite leaves the order of equal keys unspecified.
A sort function stands in for a query only where a distinct-timestamps
hypothesis makes every admissible tie order agree.
-/

namespace SpecProof

/-- The shared `SessionEvent` type (`247-shared`), with the optional
payload fields used by `StreamJsonSession` and the events database.
`toolInput` holds the JSON text of the tool input: `JSON.stringify` /
`JSON.parse` of a JSON value are modelled as the identity on this text. -/
structure SessionEvent where
  id : String
  sessionName : String
  timestamp : Int
  eventType : String
  toolName : Option String := none
  toolInput : Option String := none
  toolId : Option String := none
  toolOutput : Option String := none
  toolError : Option Bool := none
  text : Option String := none
  success : Option Bool := none
  durationMs : Option Int := none
  totalCostUsd : Option Int := none
  numTurns : Option Int := none
deriving DecidableEq

/-- A row of the `session_events` table (`DbSessionEvent` in
`apps/agent/src/db/schema`).  `id` is the `INTEGER PRIMARY KEY
AUTOINCREMENT` rowid; nullable columns are `Option`s; the boolean
columns store `0`/`1` as in SQLite. -/
structure DbSessionEvent where
  id : Nat
  session_name : String
  event_type : String
  timestamp : Int
  tool_name : Option String
  tool_input : Option String
  tool_id : Option String
  tool_output : Option String
  tool_error : Option Int
  text_content : Option String
  success : Option Int
  duration_ms : Option Int
  total_cost_usd : Option Int
  num_turns : Option Int
deriving DecidableEq

/-- The `session_events` table: rows in insertion (rowid) order together
with the next rowid the AUTOINCREMENT column will assign. -/
structure EventsDb where
  rows : List DbSessionEvent := []
  nextId : Nat := 1
deriving DecidableEq

/-- The empty table. -/
def EventsDb.empty : EventsDb := {}

/-- The row written by the `INSERT INTO session_events` statement of
`insertEvent`: `??  null` coalescing on the optional fields, booleans
stored as `1`/`0`, `toolInput` serialized (modelled as the identity on
its JSON text; a present tool input is a JS object and hence truthy). -/
def rowOfEvent (rowid : Nat) (e : SessionEvent) : DbSessionEvent :=
  { id := rowid
    session_name := e.sessionName
    event_type := e.eventType
    timestamp := e.timestamp
    tool_name := e.toolName
    tool_input := e.toolInput
    tool_id := e.toolId
    tool_output := e.toolOutput
    tool_error := e.toolError.map (fun b => if b then 1 else 0)
    text_content := e.text
    success := e.success.map (fun b => if b then 1 else 0)
    duration_ms := e.durationMs
    total_cost_usd := e.totalCostUsd
    num_turns := e.numTurns }

/-- `insertEvent`: appends one row and returns `lastInsertRowid`. -/
def insertEvent (e : SessionEvent) (db : EventsDb) : EventsDb × Nat :=
  ({ rows := db.rows ++ [rowOfEvent db.nextId e], nextId := db.nextId + 1 }, db.nextId)

/-- Inserting a list of events in order (discarding the returned rowids). -/
def insertEvents (db : EventsDb) (evs : List SessionEvent) : EventsDb :=
  evs.foldl (fun d e => (insertEvent e d).1) db

/-- The `ORDER BY timestamp ASC` comparison. -/
def tsLe (a b : DbSessionEvent) : Prop := a.timestamp ≤ b.timestamp

instance : DecidableRel tsLe := fun a b =>
  inferInstanceAs (Decidable (a.timestamp ≤ b.timestamp))

/-- The `ORDER BY timestamp DESC` comparison. -/
def tsGe (a b : DbSessionEvent) : Prop := b.timestamp ≤ a.timestamp

instance : DecidableRel tsGe := fun a b =>
  inferInstanceAs (Decidable (b.timestamp ≤ a.timestamp))

/-- JavaScript truthiness of a nullable string column: `null` and the
empty string are falsy, so `if (row.col) ev.field = row.col` keeps only
non-empty strings. -/
def strTruthy : Option String → Option String
  | some s => if s = "" then none else some s
  | none => none

/-- `dbEventToSessionEvent`: converts a DB row back to a `SessionEvent`.
String payload columns pass through the JS truthiness check; the
`0`/`1` columns are read back with `=== 1`; `id` is the rowid printed
as a string. -/
def dbEventToSessionEvent (row : DbSessionEvent) : SessionEvent :=
  { id := toString row.id
    sessionName := row.session_name
    timestamp := row.timestamp
    eventType := row.event_type
    toolName := strTruthy row.tool_name
    toolInput := strTruthy row.tool_input
    toolId := strTruthy row.tool_id
    toolOutput := strTruthy row.tool_output
    toolError := row.tool_error.map (fun n => n == 1)
    text := strTruthy row.text_content
    success := row.success.map (fun n => n == 1)
    durationMs := row.duration_ms
    totalCostUsd := row.total_cost_usd
    numTurns := row.num_turns }

/-- The ordering contract of `SELECT * FROM session_events WHERE
session_name = ? ORDER BY timestamp ASC` applied to the session's rows:
a result is some permutation of those rows that is sorted by timestamp.
The query names no tie-break column, and SQLite leaves the relative
order of rows with equal ORDER BY keys unspecified, so every such
permutation is an admissible read. -/
def OrderedReadOf (rows out : List DbSessionEvent) : Prop :=
  out.Perm rows ∧ out.Pairwise tsLe

instance (rows out : List DbSessionEvent) : Decidable (OrderedReadOf rows out) :=
  inferInstanceAs (Decidable (out.Perm rows ∧ out.Pairwise tsLe))

/-- One admissible result of the `ORDER BY timestamp ASC` query (see
`OrderedReadOf` for its contract): the session's rows sorted by
timestamp.  This function stands in for the query only where a
distinct-timestamps hypothesis makes every admissible tie order
agree. -/
def sessionRows (db : EventsDb) (sessionName : String) : List DbSessionEvent :=
  List.insertionSort tsLe (db.rows.filter (fun r => r.session_name == sessionName))

/-- `getSessionEvents`. -/
def getSessionEvents (db : EventsDb) (sessionName : String) : List SessionEvent :=
  (sessionRows db sessionName).map dbEventToSessionEvent

/-- `getSessionEventsPaginated`: the same query with `LIMIT ? OFFSET ?`,
plus the `COUNT(*)` total. -/
def getSessionEventsPaginated (db : EventsDb) (sessionName : String)
    (limit offset : Nat) : List SessionEvent × Nat :=
  ((((sessionRows db sessionName).drop offset).take limit).map dbEventToSessionEvent,
   (db.rows.filter (fun r => r.session_name == sessionName)).length)

/-- `getRecentEvents`: `ORDER BY timestamp DESC LIMIT ?`, mapped to
events and then reversed into chronological order. -/
def getRecentEvents (db : EventsDb) (sessionName : String) (limit : Nat) :
    List SessionEvent :=
  ((((List.insertionSort tsGe (db.rows.filter (fun r => r.session_name == sessionName))).take
      limit)).map dbEventToSessionEvent).reverse

/-- Timestamp order with ties broken by the monotone rowid: the order
the spec claims for read-back and pagination. -/
def rowLexLt (a b : DbSessionEvent) : Prop :=
  a.timestamp < b.timestamp ∨ (a.timestamp = b.timestamp ∧ a.id < b.id)

instance : DecidableRel rowLexLt := fun a b =>
  inferInstanceAs (Decidable (a.timestamp < b.timestamp
    ∨ (a.timestamp = b.timestamp ∧ a.id < b.id)))

/-- A small concrete table: three rows for session a, two of them with
equal timestamps, and one row for session b between them. -/
def demoEventsDb : EventsDb :=
  insertEvents EventsDb.empty
    [{ id := "u1", sessionName := "a", timestamp := 5, eventType := "text", text := some "x" },
     { id := "u2", sessionName := "a", timestamp := 3, eventType := "init" },
     { id := "u3", sessionName := "b", timestamp := 4, eventType := "init" },
     { id := "u4", sessionName := "a", timestamp := 3, eventType := "text", text := some "y" }]

/-- The rows of session a of `demoEventsDb` with the tied pair (rowids
2 and 4, both at timestamp 3) in rowid order. -/
def c3ReadIdOrder : List DbSessionEvent :=
  [rowOfEvent 2 { id := "u2", sessionName := "a", timestamp := 3, eventType := "init" },
   rowOfEvent 4 { id := "u4", sessionName := "a", timestamp := 3, eventType := "text",
                  text := some "y" },
   rowOfEvent 1 { id := "u1", sessionName := "a", timestamp := 5, eventType := "text",
                  text := some "x" }]

/-- The same rows with the tied pair swapped. -/
def c3ReadSwapped : List DbSessionEvent :=
  [rowOfEvent 4 { id := "u4", sessionName := "a", timestamp := 3, eventType := "text",
                  text := some "y" },
   rowOfEvent 2 { id := "u2", sessionName := "a", timestamp := 3, eventType := "init" },
   rowOfEvent 1 { id := "u1", sessionName := "a", timestamp := 5, eventType := "text",
                  text := some "x" }]

/-- C3: the full and paginated queries read back with `ORDER BY
timestamp ASC` and no id tie-break, so the claimed
timestamp-then-insertion-id order, and with it the stability of
LIMIT/OFFSET pagination, is not guaranteed by the code: at a session
holding two rows with equal timestamps, two different row orders — one
of them violating the timestamp-then-id order — both satisfy the
query's ordering contract, and their first pages (LIMIT 2 OFFSET 0)
already differ.  Spec section 4.6 requires "ordering on timestamp then
a monotonic tiebreak id"; the SQL omits the tiebreak column. -/
theorem c3_no_id_tiebreak_in_query :
    OrderedReadOf (demoEventsDb.rows.filter (fun r => r.session_name == "a")) c3ReadIdOrder
    ∧ OrderedReadOf (demoEventsDb.rows.filter (fun r => r.session_name == "a")) c3ReadSwapped
    ∧ c3ReadIdOrder ≠ c3ReadSwapped
    ∧ c3ReadIdOrder.Pairwise rowLexLt
    ∧ ¬ c3ReadSwapped.Pairwise rowLexLt
    ∧ c3ReadIdOrder.take 2 ≠ c3ReadSwapped.take 2 := by decide

/-- Erases the `id` field: the read-back id is the rowid printed as a
string, not the original UUID, so round-trip statements compare events
up to their id. -/
def stripId (e : SessionEvent) : SessionEvent := { e with id := "" }

theorem strTruthy_eq_self {o : Option String} (h : o ≠ some "") : strTruthy o = o := by
  cases o with
  | none => rfl
  | some s =>
    rw [strTruthy, if_neg]
    intro hs
    exact h (by rw [hs])

theorem option_bool_store_roundtrip (o : Option Bool) :
    (o.map (fun b => if b then (1 : Int) else 0)).map (fun n => n == 1) = o := by
  cases o with
  | none => rfl
  | some b => cases b <;> rfl

/-- Writing an event and converting the row back preserves everything
but the id, provided no optional string payload is the empty string. -/
theorem stripId_roundtrip (n : Nat) (e : SessionEvent)
    (h1 : e.toolName ≠ some "") (h2 : e.toolInput ≠ some "") (h3 : e.toolId ≠ some "")
    (h4 : e.toolOutput ≠ some "") (h5 : e.text ≠ some "") :
    stripId (dbEventToSessionEvent (rowOfEvent n e)) = stripId e := by
  obtain ⟨i, sn, ts, et, tn, ti, tid, tout, terr, txt, succ, dur, cost, nt⟩ := e
  simp only [dbEventToSessionEvent, rowOfEvent, stripId] at *
  simp only [strTruthy_eq_self h1, strTruthy_eq_self h2, strTruthy_eq_self h3,
    strTruthy_eq_self h4, strTruthy_eq_self h5, option_bool_store_roundtrip]

/-- The rows `insertEvent` generates for a list of events, with rowids
assigned from `n` upwards. -/
def rowsFrom (n : Nat) : List SessionEvent → List DbSessionEvent
  | [] => []
  | e :: es => rowOfEvent n e :: rowsFrom (n + 1) es

theorem insertEvents_rows (evs : List SessionEvent) :
    ∀ db : EventsDb, (insertEvents db evs).rows = db.rows ++ rowsFrom db.nextId evs := by
  induction evs with
  | nil =>
    intro db
    simp [insertEvents, rowsFrom]
  | cons e es ih =>
    intro db
    have hc : insertEvents db (e :: es) = insertEvents (insertEvent e db).1 es := rfl
    rw [hc, ih, insertEvent, rowsFrom, List.append_assoc, List.singleton_append]

theorem filter_rowsFrom_all (s : String) :
    ∀ (n : Nat) (evs : List SessionEvent), (∀ e ∈ evs, e.sessionName = s) →
      (rowsFrom n evs).filter (fun r => r.session_name == s) = rowsFrom n evs := by
  intro n evs
  induction evs generalizing n with
  | nil =>
    intro _
    rfl
  | cons e es ih =>
    intro h
    rw [rowsFrom, List.filter_cons]
    have hs : e.sessionName = s := h e (List.mem_cons_self e es)
    rw [if_pos (by simp [rowOfEvent, hs])]
    rw [ih (n + 1) (fun e' he' => h e' (List.mem_cons_of_mem e he'))]

theorem mem_rowsFrom {r : DbSessionEvent} :
    ∀ {n : Nat} {evs : List SessionEvent}, r ∈ rowsFrom n evs →
      ∃ e ∈ evs, ∃ m : Nat, r = rowOfEvent m e := by
  intro n evs
  induction evs generalizing n with
  | nil =>
    intro h
    simp [rowsFrom] at h
  | cons e es ih =>
    intro h
    rw [rowsFrom, List.mem_cons] at h
    rcases h with h | h
    · exact ⟨e, List.mem_cons_self e es, n, h⟩
    · obtain ⟨e', he', m, hm⟩ := ih h
      exact ⟨e', List.mem_cons_of_mem e he', m, hm⟩

theorem rowsFrom_pairwise_tsLe :
    ∀ (n : Nat) (evs : List SessionEvent),
      evs.Pairwise (fun a b => a.timestamp ≤ b.timestamp) →
      (rowsFrom n evs).Pairwise tsLe := by
  intro n evs
  induction evs generalizing n with
  | nil =>
    intro _
    exact List.Pairwise.nil
  | cons e es ih =>
    intro h
    obtain ⟨he, hes⟩ := List.pairwise_cons.mp h
    rw [rowsFrom, List.pairwise_cons]
    refine ⟨?_, ih (n + 1) hes⟩
    intro r hr
    obtain ⟨e', he', m, hm⟩ := mem_rowsFrom hr
    rw [hm]
    exact he e' he'

theorem map_strip_rowsFrom :
    ∀ (n : Nat) (evs : List SessionEvent),
      (∀ e ∈ evs, e.toolName ≠ some "" ∧ e.toolInput ≠ some "" ∧ e.toolId ≠ some ""
        ∧ e.toolOutput ≠ some "" ∧ e.text ≠ some "") →
      (rowsFrom n evs).map (fun r => stripId (dbEventToSessionEvent r)) = evs.map stripId := by
  intro n evs
  induction evs generalizing n with
  | nil =>
    intro _
    rfl
  | cons e es ih =>
    intro h
    obtain ⟨h1, h2, h3, h4, h5⟩ := h e (List.mem_cons_self e es)
    rw [rowsFrom, List.map_cons, List.map_cons,
      stripId_roundtrip n e h1 h2 h3 h4 h5,
      ih (n + 1) (fun e' he' => h e' (List.mem_cons_of_mem e he'))]

theorem perm_pairwise_asymm_eq {α : Type} (lt : α → α → Prop)
    (hasym : ∀ a b, lt a b → ¬ lt b a) :
    ∀ {l₁ l₂ : List α}, l₁.Perm l₂ → l₁.Pairwise lt → l₂.Pairwise lt → l₁ = l₂ := by
  intro l₁
  induction l₁ with
  | nil =>
    intro l₂ hp _ _
    exact hp.nil_eq
  | cons x t ih =>
    intro l₂ hp h1 h2
    cases l₂ with
    | nil =>
      exact absurd hp.symm.nil_eq (by simp)
    | cons y t₂ =>
      have hxy : x = y := by
        by_contra hne
        have hx2 : x ∈ t₂ := by
          have := hp.mem_iff.mp (List.mem_cons_self x t)
          rcases List.mem_cons.mp this with h | h
          · exact absurd h hne
          · exact h
        have hy1 : y ∈ t := by
          have := hp.mem_iff.mpr (List.mem_cons_self y t₂)
          rcases List.mem_cons.mp this with h | h
          · exact absurd h.symm hne
          · exact h
        exact hasym x y ((List.pairwise_cons.mp h1).1 y hy1)
          ((List.pairwise_cons.mp h2).1 x hx2)
      subst hxy
      rw [ih hp.cons_inv h1.of_cons h2.of_cons]

theorem rowsFrom_pairwise_tsLt :
    ∀ (n : Nat) (evs : List SessionEvent),
      evs.Pairwise (fun a b => a.timestamp < b.timestamp) →
      (rowsFrom n evs).Pairwise (fun a b => a.timestamp < b.timestamp) := by
  intro n evs
  induction evs generalizing n with
  | nil =>
    intro _
    exact List.Pairwise.nil
  | cons e es ih =>
    intro h
    obtain ⟨he, hes⟩ := List.pairwise_cons.mp h
    rw [rowsFrom, List.pairwise_cons]
    refine ⟨?_, ih (n + 1) hes⟩
    intro r hr
    obtain ⟨e', he', m, hm⟩ := mem_rowsFrom hr
    rw [hm]
    exact he e' he'

/-- The empty-text event of the C4 counterexample. -/
def emptyTextEvent : SessionEvent :=
  { id := "u1", sessionName := "s", timestamp := 0, eventType := "text", text := some "" }

/-- Three events with strictly ascending timestamps for the C4 witness. -/
def c4DemoEvents : List SessionEvent :=
  [{ id := "u1", sessionName := "s", timestamp := 1, eventType := "init" },
   { id := "u2", sessionName := "s", timestamp := 2, eventType := "tool_call",
     toolName := some "Bash", toolInput := some "ls", toolId := some "t1" },
   { id := "u3", sessionName := "s", timestamp := 3, eventType := "result",
     success := some true, durationMs := some 0, numTurns := some 1 }]

/-- C4 (amended): inserting N events with ascending timestamps for a
session into a table holding nothing for that session and then reading
them back yields the same N events — same `eventType`, timestamp and
payload fields, the id excepted — arranged in ascending timestamp
order, for every read the query's ordering contract admits.  The
relative order of equal-timestamp events is unspecified (the query has
no tie-break); when the timestamps are strictly ascending the
read-back is exactly the inserted list.  All of this provided no
optional string payload is the empty string: empty strings are dropped
by the JS truthiness checks of `dbEventToSessionEvent`. -/
theorem c4_insert_read_roundtrip (db : EventsDb) (s : String) (evs : List SessionEvent)
    (out : List DbSessionEvent)
    (hdb : ∀ r ∈ db.rows, r.session_name ≠ s)
    (hname : ∀ e ∈ evs, e.sessionName = s)
    (_hts : evs.Pairwise (fun a b => a.timestamp ≤ b.timestamp))
    (hne : ∀ e ∈ evs, e.toolName ≠ some "" ∧ e.toolInput ≠ some "" ∧ e.toolId ≠ some ""
      ∧ e.toolOutput ≠ some "" ∧ e.text ≠ some "")
    (hout : OrderedReadOf
      ((insertEvents db evs).rows.filter (fun r => r.session_name == s)) out) :
    ((out.map dbEventToSessionEvent).map stripId).Perm (evs.map stripId)
    ∧ (out.map dbEventToSessionEvent).Pairwise
        (fun a b => a.timestamp ≤ b.timestamp)
    ∧ (evs.Pairwise (fun a b => a.timestamp < b.timestamp) →
        (out.map dbEventToSessionEvent).map stripId = evs.map stripId) := by
  have hdbf : db.rows.filter (fun r => r.session_name == s) = [] := by
    rw [List.filter_eq_nil_iff]
    intro r hr
    simp only [beq_iff_eq]
    exact hdb r hr
  have hfilter : (insertEvents db evs).rows.filter (fun r => r.session_name == s)
      = rowsFrom db.nextId evs := by
    rw [insertEvents_rows, List.filter_append, hdbf, List.nil_append,
      filter_rowsFrom_all s db.nextId evs hname]
  rw [OrderedReadOf, hfilter] at hout
  obtain ⟨hperm, hsort⟩ := hout
  have hmapstrip : (rowsFrom db.nextId evs).map (fun r => stripId (dbEventToSessionEvent r))
      = evs.map stripId := map_strip_rowsFrom db.nextId evs hne
  have hmm : ((out.map dbEventToSessionEvent).map stripId)
      = out.map (fun r => stripId (dbEventToSessionEvent r)) := by
    rw [List.map_map]
    rfl
  refine ⟨?_, ?_, ?_⟩
  · rw [hmm, ← hmapstrip]
    exact hperm.map _
  · rw [List.pairwise_map]
    exact hsort
  · intro hstrict
    have hrows : (rowsFrom db.nextId evs).Pairwise
        (fun a b => a.timestamp < b.timestamp) :=
      rowsFrom_pairwise_tsLt db.nextId evs hstrict
    have hne' : out.Pairwise (fun a b => a.timestamp ≠ b.timestamp) :=
      (hperm.pairwise_iff (fun h => h.symm)).mpr (hrows.imp (fun h => ne_of_lt h))
    have houtlt : out.Pairwise (fun a b => a.timestamp < b.timestamp) :=
      (hsort.and hne').imp (fun h => lt_of_le_of_ne h.1 h.2)
    have heq : out = rowsFrom db.nextId evs :=
      perm_pairwise_asymm_eq (fun a b : DbSessionEvent => a.timestamp < b.timestamp)
        (fun a b h1 h2 => absurd (lt_trans h1 h2) (lt_irrefl _)) hperm houtlt hrows
    rw [hmm, heq, hmapstrip]

/-- C4 counterexample: the round trip is not exact as stated — for the
one-event table below the query's (unique) admissible read, mapped back
to events, differs from the inserted list: the inserted event carried
`text` equal to the empty string, and `dbEventToSessionEvent` drops
falsy (empty-string) columns, so the read-back has no `text` at all. -/
theorem c4_roundtrip_counterexample :
    OrderedReadOf
      ((insertEvents EventsDb.empty [emptyTextEvent]).rows.filter
        (fun r => r.session_name == "s"))
      [rowOfEvent 1 emptyTextEvent]
    ∧ ([rowOfEvent 1 emptyTextEvent].map dbEventToSessionEvent).map stripId
      ≠ [emptyTextEvent].map stripId := by decide

theorem c4_insert_read_roundtrip_witness :
    (∀ r ∈ EventsDb.empty.rows, r.session_name ≠ "s")
    ∧ (∀ e ∈ c4DemoEvents, e.sessionName = "s")
    ∧ c4DemoEvents.Pairwise (fun a b => a.timestamp ≤ b.timestamp)
    ∧ (∀ e ∈ c4DemoEvents, e.toolName ≠ some "" ∧ e.toolInput ≠ some ""
        ∧ e.toolId ≠ some "" ∧ e.toolOutput ≠ some "" ∧ e.text ≠ some "")
    ∧ OrderedReadOf ((insertEvents EventsDb.empty c4DemoEvents).rows.filter
        (fun r => r.session_name == "s")) (rowsFrom 1 c4DemoEvents)
    ∧ ((((rowsFrom 1 c4DemoEvents).map dbEventToSessionEvent).map stripId).Perm
        (c4DemoEvents.map stripId)
      ∧ ((rowsFrom 1 c4DemoEvents).map dbEventToSessionEvent).Pairwise
          (fun a b => a.timestamp ≤ b.timestamp)
      ∧ (c4DemoEvents.Pairwise (fun a b => a.timestamp < b.timestamp) →
          ((rowsFrom 1 c4DemoEvents).map dbEventToSessionEvent).map stripId
            = c4DemoEvents.map stripId)) :=
  ⟨by decide, by decide, by decide, by decide, by decide,
   c4_insert_read_roundtrip EventsDb.empty "s" c4DemoEvents (rowsFrom 1 c4DemoEvents)
     (by decide) (by decide) (by decide) (by decide) (by decide)⟩

instance : IsTotal DbSessionEvent tsLe :=
  ⟨fun a b => le_total a.timestamp b.timestamp⟩

instance : IsTrans DbSessionEvent tsLe :=
  ⟨fun _ _ _ h1 h2 => le_trans h1 h2⟩

instance : IsTotal DbSessionEvent tsGe :=
  ⟨fun a b => le_total b.timestamp a.timestamp⟩

instance : IsTrans DbSessionEvent tsGe :=
  ⟨fun _ _ _ h1 h2 => le_trans h2 h1⟩

/-- With pairwise-distinct timestamps the descending timestamp sort is
exactly the reverse of the ascending one. -/
theorem sort_desc_eq_reverse_asc (l : List DbSessionEvent)
    (hne : l.Pairwise (fun a b => a.timestamp ≠ b.timestamp)) :
    List.insertionSort tsGe l = (List.insertionSort tsLe l).reverse := by
  apply perm_pairwise_asymm_eq
    (fun a b : DbSessionEvent => b.timestamp < a.timestamp)
  · intro a b hab hba
    exact absurd (lt_trans hab hba) (lt_irrefl _)
  · exact ((List.perm_insertionSort tsGe l).trans
      ((List.perm_insertionSort tsLe l).symm.trans
        (List.reverse_perm _).symm))
  · have hsorted : (List.insertionSort tsGe l).Pairwise tsGe :=
      List.sorted_insertionSort tsGe l
    have hne' : (List.insertionSort tsGe l).Pairwise
        (fun a b => a.timestamp ≠ b.timestamp) :=
      ((List.perm_insertionSort tsGe l).pairwise_iff (fun h => h.symm)).mpr hne
    exact (hsorted.and hne').imp
      (fun h => lt_of_le_of_ne h.1 (Ne.symm h.2))
  · rw [List.pairwise_reverse]
    have hsorted : (List.insertionSort tsLe l).Pairwise tsLe :=
      List.sorted_insertionSort tsLe l
    have hne' : (List.insertionSort tsLe l).Pairwise
        (fun a b => a.timestamp ≠ b.timestamp) :=
      ((List.perm_insertionSort tsLe l).pairwise_iff (fun h => h.symm)).mpr hne
    exact (hsorted.and hne').imp
      (fun h => lt_of_le_of_ne h.1 h.2)

/-- C10: `getRecentEvents` returns the min(limit, total) events with
the greatest timestamps, re-ordered into ascending (chronological)
order — the descending LIMIT query followed by the reverse yields
exactly the suffix of the full chronological list. Stated for sessions
whose stored timestamps are pairwise distinct, where "the greatest
timestamps" is unambiguous. -/
theorem c10_recent_events (db : EventsDb) (s : String) (n : Nat)
    (hne : (db.rows.filter (fun r => r.session_name == s)).Pairwise
      (fun a b => a.timestamp ≠ b.timestamp)) :
    getRecentEvents db s n
      = (getSessionEvents db s).drop ((getSessionEvents db s).length - n)
    ∧ (getRecentEvents db s n).length
      = min n (getSessionEvents db s).length := by
  have hmain : getRecentEvents db s n
      = (getSessionEvents db s).drop ((getSessionEvents db s).length - n) := by
    rw [getRecentEvents, getSessionEvents, sessionRows,
      sort_desc_eq_reverse_asc _ hne]
    rw [← List.map_reverse]
    have hrev : ((List.insertionSort tsLe
          (db.rows.filter (fun r => r.session_name == s))).reverse.take n).reverse
        = (List.insertionSort tsLe
            (db.rows.filter (fun r => r.session_name == s))).drop
          ((List.insertionSort tsLe
            (db.rows.filter (fun r => r.session_name == s))).length - n) := by
      rw [List.reverse_take, List.reverse_reverse, List.length_reverse]
    rw [hrev, List.map_drop, List.length_map]
  refine ⟨hmain, ?_⟩
  rw [hmain, List.length_drop]
  omega

theorem c10_recent_events_witness :
    ((demoEventsDb.rows.filter (fun r => r.session_name == "b")).Pairwise
      (fun a b => a.timestamp ≠ b.timestamp))
    ∧ (getRecentEvents demoEventsDb "b" 2
        = (getSessionEvents demoEventsDb "b").drop
          ((getSessionEvents demoEventsDb "b").length - 2)
      ∧ (getRecentEvents demoEventsDb "b" 2).length
        = min 2 (getSessionEvents demoEventsDb "b").length) :=
  ⟨by decide, c10_recent_events demoEventsDb "b" 2 (by decide)⟩

/-- The internal `StreamSessionStatus` of a `StreamJsonSession`. -/
inductive StreamSessionStatus
  | starting
  | running
  | waiting_input
  | completed
  | error
deriving DecidableEq

/-- The externally reported `SessionStatus` (from `247-shared`) passed
to the `onStatusChange` callback. -/
inductive SessionStatus
  | working
  | needs_attention
  | idle
deriving DecidableEq

/-- One content block of a stream-json assistant/user message. -/
inductive ContentBlock
  | text (s : String)
  | toolUse (name : String) (input : String) (id : String)
  | toolResult (toolUseId : String) (content : String) (isError : Bool)
  | otherBlock
deriving DecidableEq

/-- A parsed NDJSON event from the subprocess stdout; `other` is valid
JSON whose `type` is none of the four recognized ones (`handleEvent`
falls through its switch and ignores it). -/
inductive StreamJsonEvent
  | system (sessionId : String) (model : String)
  | assistant (content : List ContentBlock)
  | user (content : List ContentBlock) (toolUseResultStdout : Option String)
  | result (isError : Bool) (durationMs : Int) (totalCostUsd : Int) (numTurns : Int)
  | other
deriving DecidableEq

/-- A message written to the subprocess stdin. -/
inductive StdinMessage
  | userText (content : String)
  | toolResultMsg (toolUseId : String) (content : String) (isError : Bool)
deriving DecidableEq

/-- The state of a `StreamJsonSession` together with its externally
observable traces: the statuses reported through `onStatusChange`, the
messages written to stdin and the SIGTERMs sent.  `processSet` models
`this.process !== null`, `stdinWritable` models
`this.process.stdin.writable`.  `Date.now()` is modelled by the fixed
`now` field and `randomUUID` by the counter `nextUuid`; neither affects
the properties proved below. -/
structure StreamState where
  sessionName : String := ""
  events : List SessionEvent := []
  status : StreamSessionStatus := StreamSessionStatus.starting
  claudeSessionId : Option String := none
  model : Option String := none
  processSet : Bool := false
  stdinWritable : Bool := false
  readlineOpen : Bool := false
  statusEmits : List SessionStatus := []
  stdinWrites : List StdinMessage := []
  sigtermCount : Nat := 0
  now : Int := 0
  nextUuid : Nat := 0
deriving DecidableEq

/-- A fresh identifier for an event (`randomUUID`). -/
def freshUuid (st : StreamState) : String × StreamState :=
  (toString st.nextUuid, { st with nextUuid := st.nextUuid + 1 })

/-- `addEvent`: appends to the in-memory event log (and notifies the
`onEvent` callback). -/
def addEvent (st : StreamState) (e : SessionEvent) : StreamState :=
  { st with events := st.events ++ [e] }

/-- A call of the `onStatusChange` callback. -/
def emitStatus (st : StreamState) (s : SessionStatus) : StreamState :=
  { st with statusEmits := st.statusEmits ++ [s] }

/-- `handleInitEvent`: captures the backend session id and model and
logs an `init` event. -/
def handleInitEvent (st : StreamState) (sessionId model : String) : StreamState :=
  let st1 := { st with claudeSessionId := some sessionId, model := some model }
  let (u, st2) := freshUuid st1
  addEvent st2 { id := u, sessionName := st2.sessionName, timestamp := st2.now,
                 eventType := "init" }

/-- One assistant content block: `text` and `tool_use` segments are
appended to the event log; a `tool_use` named `AskUserQuestion` flips
the status to `waiting_input` and reports `needs_attention`. -/
def handleAssistantBlock (st : StreamState) : ContentBlock → StreamState
  | ContentBlock.text s =>
    let (u, st1) := freshUuid st
    addEvent st1 { id := u, sessionName := st1.sessionName, timestamp := st1.now,
                   eventType := "text", text := some s }
  | ContentBlock.toolUse name input tid =>
    let (u, st1) := freshUuid st
    let st2 := addEvent st1 { id := u, sessionName := st1.sessionName, timestamp := st1.now,
                              eventType := "tool_call", toolName := some name,
                              toolInput := some input, toolId := some tid }
    if name = "AskUserQuestion" then
      emitStatus { st2 with status := StreamSessionStatus.waiting_input }
        SessionStatus.needs_attention
    else st2
  | ContentBlock.toolResult _ _ _ => st
  | ContentBlock.otherBlock => st

/-- `handleAssistantEvent` iterates over the message content. -/
def handleAssistantEvent (st : StreamState) (content : List ContentBlock) : StreamState :=
  content.foldl handleAssistantBlock st

/-- One user content block: a `tool_result` segment is logged, its
output taken from `tool_use_result.stdout` when that is present and
non-empty (JS `||`), otherwise from the block content. -/
def handleUserBlock (stdout : Option String) (st : StreamState) : ContentBlock → StreamState
  | ContentBlock.toolResult tid content isErr =>
    let out := match stdout with
      | some s => if s = "" then content else s
      | none => content
    let (u, st1) := freshUuid st
    addEvent st1 { id := u, sessionName := st1.sessionName, timestamp := st1.now,
                   eventType := "tool_result", toolId := some tid,
                   toolOutput := some out, toolError := some isErr }
  | _ => st

/-- `handleUserEvent` iterates over the message content. -/
def handleUserEvent (st : StreamState) (content : List ContentBlock)
    (stdout : Option String) : StreamState :=
  content.foldl (handleUserBlock stdout) st

/-- `handleResultEvent`: logs the `result` event, marks the session
`completed` and reports `idle`. -/
def handleResultEvent (st : StreamState) (isError : Bool)
    (durationMs totalCostUsd numTurns : Int) : StreamState :=
  let (u, st1) := freshUuid st
  let st2 := addEvent st1 { id := u, sessionName := st1.sessionName, timestamp := st1.now,
                            eventType := "result", success := some (!isError),
                            durationMs := some durationMs,
                            totalCostUsd := some totalCostUsd, numTurns := some numTurns }
  emitStatus { st2 with status := StreamSessionStatus.completed } SessionStatus.idle

/-- `handleEvent`: the switch on the incoming event type. -/
def handleEvent (st : StreamState) : StreamJsonEvent → StreamState
  | StreamJsonEvent.system sid m => handleInitEvent st sid m
  | StreamJsonEvent.assistant content => handleAssistantEvent st content
  | StreamJsonEvent.user content stdout => handleUserEvent st content stdout
  | StreamJsonEvent.result isErr d c nt => handleResultEvent st isErr d c nt
  | StreamJsonEvent.other => st

/-- `handleError`: forces status `error`; note the `onStatusChange`
callback is invoked with `idle`. -/
def handleError (st : StreamState) : StreamState :=
  emitStatus { st with status := StreamSessionStatus.error } SessionStatus.idle

/-- The `exit` listener installed by `start`: unless the status is
already `completed`, a zero exit code completes the session and any
other code marks it `error`.  The closed stdout/stdin streams make
stdin unwritable. -/
def handleExit (st : StreamState) (code : Int) : StreamState :=
  let st1 := { st with stdinWritable := false }
  if st1.status ≠ StreamSessionStatus.completed then
    { st1 with status := if code = 0 then StreamSessionStatus.completed
                         else StreamSessionStatus.error }
  else st1

/-- `parseLine` over an abstract JSON parser (`JSON.parse` is a JS
library primitive, modelled as a parameter): a blank line is skipped; a
line the parser rejects is logged and discarded; otherwise the parsed
event is handled. -/
def parseLine (parse : String → Option StreamJsonEvent) (st : StreamState)
    (line : String) : StreamState :=
  if line.trim = "" then st
  else
    match parse line with
    | some ev => handleEvent st ev
    | none => st

/-- The readline `line` listener applied to a sequence of stdout lines. -/
def processLines (parse : String → Option StreamJsonEvent) (st : StreamState)
    (lines : List String) : StreamState :=
  lines.foldl (parseLine parse) st

/-- `sendUserMessage`: writes to stdin when it is available. -/
def sendUserMessage (st : StreamState) (content : String) : StreamState :=
  if st.processSet && st.stdinWritable then
    { st with stdinWrites := st.stdinWrites ++ [StdinMessage.userText content] }
  else st

/-- `sendToolResult`: writes a tool_result message to stdin — the
given `toolUseId` is passed through without being checked against any
pending tool use — and, when the session was `waiting_input`, returns
it to `running` and reports `working`. -/
def sendToolResult (st : StreamState) (toolUseId result : String)
    (isError : Bool) : StreamState :=
  if st.processSet && st.stdinWritable then
    let st1 := { st with stdinWrites :=
      st.stdinWrites ++ [StdinMessage.toolResultMsg toolUseId result isError] }
    if st1.status = StreamSessionStatus.waiting_input then
      emitStatus { st1 with status := StreamSessionStatus.running } SessionStatus.working
    else st1
  else st

/-- `kill`: sends SIGTERM and clears the process handle if it is still
set, and closes the readline if it is still open. -/
def kill (st : StreamState) : StreamState :=
  let st1 := if st.processSet then
      { st with sigtermCount := st.sigtermCount + 1, processSet := false }
    else st
  if st1.readlineOpen then { st1 with readlineOpen := false } else st1

/-- `start` after a successful spawn: installs the listeners, sends the
initial prompt, sets the status to `running` and reports `working`. -/
def start (sessionName prompt : String) (now : Int) : StreamState :=
  let st : StreamState :=
    { sessionName := sessionName, now := now,
      processSet := true, stdinWritable := true, readlineOpen := true }
  let st1 := sendUserMessage st prompt
  emitStatus { st1 with status := StreamSessionStatus.running } SessionStatus.working

/-- An externally driven step of a started `StreamJsonSession`: a
parsed stdout event, a process error or exit, or one of the public
methods. -/
inductive SessionOp
  | event (ev : StreamJsonEvent)
  | procError
  | procExit (code : Int)
  | sendUser (content : String)
  | sendTool (toolUseId : String) (result : String) (isError : Bool)
  | kill
deriving DecidableEq

/-- The effect of one operation. -/
def stepOp (st : StreamState) : SessionOp → StreamState
  | SessionOp.event ev => handleEvent st ev
  | SessionOp.procError => handleError st
  | SessionOp.procExit code => handleExit st code
  | SessionOp.sendUser c => sendUserMessage st c
  | SessionOp.sendTool i r e => sendToolResult st i r e
  | SessionOp.kill => kill st

/-- Running a sequence of operations. -/
def runOps (st : StreamState) (ops : List SessionOp) : StreamState :=
  ops.foldl stepOp st

/-- C2: every stdout line is handled independently; a line the JSON
parser rejects is logged and discarded: the session state — event log,
status, every trace — is unchanged, so the session is not terminated,
and processing the remaining lines proceeds as if the malformed line
had never arrived. -/
theorem c2_malformed_line_discarded (parse : String → Option StreamJsonEvent)
    (st : StreamState) (line : String) (h : parse line = none) :
    parseLine parse st line = st
    ∧ ∀ pre post : List String,
        processLines parse st (pre ++ line :: post) = processLines parse st (pre ++ post) := by
  have hline : ∀ s : StreamState, parseLine parse s line = s := by
    intro s
    rw [parseLine]
    by_cases ht : line.trim = ""
    · rw [if_pos ht]
    · rw [if_neg ht, h]
  refine ⟨hline st, ?_⟩
  intro pre post
  rw [processLines, processLines, List.foldl_append, List.foldl_append, List.foldl_cons,
    hline]

theorem c2_malformed_line_discarded_witness :
    ((fun _ : String => (none : Option StreamJsonEvent)) "not json" = none)
    ∧ (parseLine (fun _ => none) (start "s" "hi" 0) "not json" = start "s" "hi" 0
      ∧ ∀ pre post : List String,
          processLines (fun _ => none) (start "s" "hi" 0) (pre ++ "not json" :: post)
            = processLines (fun _ => none) (start "s" "hi" 0) (pre ++ post)) :=
  ⟨rfl, c2_malformed_line_discarded (fun _ => none) (start "s" "hi" 0) "not json" rfl⟩

/-- C9: `kill` is idempotent — killing an already-killed session is a
complete no-op: no further termination signal is sent and no event,
status change or status emission is added. -/
theorem c9_kill_idempotent (st : StreamState) : kill (kill st) = kill st := by
  obtain ⟨sn, ev, stt, cid, mdl, ps, sw, ro, se, swr, sc, n, nu⟩ := st
  cases ps <;> cases ro <;> rfl

theorem sendUserMessage_status (st : StreamState) (c : String) :
    (sendUserMessage st c).status = st.status := by
  rw [sendUserMessage]
  split_ifs <;> rfl

theorem sendToolResult_status_of_ne (st : StreamState) (i r : String) (e : Bool)
    (h : st.status ≠ StreamSessionStatus.waiting_input) :
    (sendToolResult st i r e).status = st.status := by
  by_cases h1 : st.processSet && st.stdinWritable
  · simp [sendToolResult, h1, h]
  · simp [sendToolResult, h1]

theorem kill_status (st : StreamState) : (kill st).status = st.status := by
  rw [kill]
  split_ifs <;> rfl

theorem handleAssistantBlock_processSet (st : StreamState) (b : ContentBlock) :
    (handleAssistantBlock st b).processSet = st.processSet := by
  cases b with
  | text s => rfl
  | toolUse name input tid =>
    rw [handleAssistantBlock]
    split_ifs <;> rfl
  | toolResult i c e => rfl
  | otherBlock => rfl

theorem handleAssistantEvent_processSet (content : List ContentBlock) :
    ∀ st : StreamState, (handleAssistantEvent st content).processSet = st.processSet := by
  induction content with
  | nil =>
    intro st
    rfl
  | cons b bs ih =>
    intro st
    rw [handleAssistantEvent, List.foldl_cons]
    have := ih (handleAssistantBlock st b)
    rw [handleAssistantEvent] at this
    rw [this, handleAssistantBlock_processSet]

theorem handleUserBlock_processSet (stdout : Option String) (st : StreamState)
    (b : ContentBlock) : (handleUserBlock stdout st b).processSet = st.processSet := by
  cases b <;> rfl

theorem handleUserEvent_processSet (content : List ContentBlock) (stdout : Option String) :
    ∀ st : StreamState, (handleUserEvent st content stdout).processSet = st.processSet := by
  induction content with
  | nil =>
    intro st
    rfl
  | cons b bs ih =>
    intro st
    rw [handleUserEvent, List.foldl_cons]
    have := ih (handleUserBlock stdout st b)
    rw [handleUserEvent] at this
    rw [this, handleUserBlock_processSet]

theorem handleEvent_processSet (st : StreamState) (ev : StreamJsonEvent) :
    (handleEvent st ev).processSet = st.processSet := by
  cases ev with
  | system sid m => rfl
  | assistant content => exact handleAssistantEvent_processSet content st
  | user content stdout => exact handleUserEvent_processSet content stdout st
  | result isErr d c nt => rfl
  | other => rfl

/-- No operation of a started session ever re-establishes the process
handle: there is no automatic respawn/retry path. -/
theorem stepOp_no_respawn (st : StreamState) (op : SessionOp) :
    (stepOp st op).processSet = true → st.processSet = true := by
  cases op with
  | event ev =>
    rw [stepOp, handleEvent_processSet]
    exact id
  | procError => exact id
  | procExit code =>
    rw [stepOp, handleExit]
    split_ifs <;> exact id
  | sendUser c =>
    rw [stepOp, sendUserMessage]
    split_ifs <;> exact id
  | sendTool i r e =>
    simp only [stepOp, sendToolResult]
    split_ifs <;> exact id
  | kill =>
    rw [stepOp, kill]
    split_ifs with h1 h2 h3
    · intro h
      exact absurd h (by simp)
    · intro h
      exact absurd h (by simp)
    · exact id
    · exact id

/-- Input operations: the public methods a caller can invoke on a
session, as opposed to signals originating from the subprocess. -/
def SessionOp.isInputOp : SessionOp → Bool
  | SessionOp.sendUser _ => true
  | SessionOp.sendTool _ _ _ => true
  | SessionOp.kill => true
  | _ => false

/-- C5 (amended): a subprocess error forces the status to `error`, as
does an exit with a non-zero code while the status is not already
`completed`; `error` is terminal for every input operation — sending a
user message or a tool result and `kill` never change it — and no
operation ever re-establishes the process handle (no automatic retry);
but `error` is not terminal against later backend events: see the
counterexample, where a late `result` event overwrites it. -/
theorem c5_crash_sets_error (st : StreamState) (code : Int)
    (hcode : code ≠ 0) (hst : st.status ≠ StreamSessionStatus.completed) :
    (handleError st).status = StreamSessionStatus.error
    ∧ (handleExit st code).status = StreamSessionStatus.error
    ∧ (∀ (s : StreamState) (ops : List SessionOp),
        s.status = StreamSessionStatus.error →
        (∀ op ∈ ops, op.isInputOp = true) →
        (runOps s ops).status = StreamSessionStatus.error)
    ∧ (∀ (s : StreamState) (op : SessionOp),
        (stepOp s op).processSet = true → s.processSet = true) := by
  refine ⟨rfl, ?_, ?_, stepOp_no_respawn⟩
  · simp [handleExit, hst, hcode]
  · intro s ops
    induction ops generalizing s with
    | nil =>
      intro hs _
      exact hs
    | cons op rest ih =>
      intro hs hinput
      have hstep : (stepOp s op).status = StreamSessionStatus.error := by
        cases op with
        | event ev =>
          have h' := hinput _ (List.mem_cons_self _ _)
          simp [SessionOp.isInputOp] at h'
        | procError =>
          have h' := hinput _ (List.mem_cons_self _ _)
          simp [SessionOp.isInputOp] at h'
        | procExit c =>
          have h' := hinput _ (List.mem_cons_self _ _)
          simp [SessionOp.isInputOp] at h'
        | sendUser c =>
          rw [stepOp, sendUserMessage_status]
          exact hs
        | sendTool i r e =>
          rw [stepOp, sendToolResult_status_of_ne]
          · exact hs
          · rw [hs]
            intro hcon
            exact StreamSessionStatus.noConfusion hcon
        | kill =>
          rw [stepOp, kill_status]
          exact hs
      exact ih (stepOp s op) hstep
        (fun op' h' => hinput op' (List.mem_cons_of_mem _ h'))

/-- C5 counterexample: `error` is not terminal for every operation of
the session — a session in `error` that receives a late `result` event
from the subprocess moves to `completed`. -/
theorem c5_error_not_terminal_counterexample :
    (handleError (start "s" "p" 0)).status = StreamSessionStatus.error
    ∧ (handleEvent (handleError (start "s" "p" 0))
        (StreamJsonEvent.result false 1 0 1)).status
      = StreamSessionStatus.completed := by decide

theorem c5_crash_sets_error_witness :
    ((1 : Int) ≠ 0)
    ∧ ((start "s" "p" 0).status ≠ StreamSessionStatus.completed)
    ∧ ((handleError (start "s" "p" 0)).status = StreamSessionStatus.error
      ∧ (handleExit (start "s" "p" 0) 1).status = StreamSessionStatus.error
      ∧ (∀ (s : StreamState) (ops : List SessionOp),
          s.status = StreamSessionStatus.error →
          (∀ op ∈ ops, op.isInputOp = true) →
          (runOps s ops).status = StreamSessionStatus.error)
      ∧ (∀ (s : StreamState) (op : SessionOp),
          (stepOp s op).processSet = true → s.processSet = true)) :=
  ⟨by decide, by decide, c5_crash_sets_error (start "s" "p" 0) 1 (by decide) (by decide)⟩

theorem handleAssistantBlock_status (st : StreamState) (blk : ContentBlock) :
    (handleAssistantBlock st blk).status = st.status
    ∨ (handleAssistantBlock st blk).status = StreamSessionStatus.waiting_input := by
  cases blk with
  | text s => exact Or.inl rfl
  | toolUse name input tid =>
    by_cases h : name = "AskUserQuestion"
    · right
      simp [handleAssistantBlock, h, emitStatus, addEvent, freshUuid]
    · left
      simp [handleAssistantBlock, h, addEvent, freshUuid]
  | toolResult i c e => exact Or.inl rfl
  | otherBlock => exact Or.inl rfl

theorem handleAssistantBlock_ask (st : StreamState) (input tid : String) :
    (handleAssistantBlock st (ContentBlock.toolUse "AskUserQuestion" input tid)).status
      = StreamSessionStatus.waiting_input := by
  simp [handleAssistantBlock, emitStatus, addEvent, freshUuid]

theorem handleAssistantEvent_keeps_waiting (content : List ContentBlock) :
    ∀ st : StreamState, st.status = StreamSessionStatus.waiting_input →
      (handleAssistantEvent st content).status = StreamSessionStatus.waiting_input := by
  induction content with
  | nil =>
    intro st hs
    exact hs
  | cons blk rest ih =>
    intro st hs
    have h1 : (handleAssistantBlock st blk).status = StreamSessionStatus.waiting_input := by
      rcases handleAssistantBlock_status st blk with h | h
      · rw [h]
        exact hs
      · exact h
    exact ih (handleAssistantBlock st blk) h1

theorem handleAssistantEvent_status (content : List ContentBlock) :
    ∀ st : StreamState, (handleAssistantEvent st content).status = st.status
      ∨ (handleAssistantEvent st content).status = StreamSessionStatus.waiting_input := by
  induction content with
  | nil =>
    intro st
    exact Or.inl rfl
  | cons blk rest ih =>
    intro st
    rcases handleAssistantBlock_status st blk with h | h
    · rcases ih (handleAssistantBlock st blk) with h' | h'
      · left
        have : handleAssistantEvent st (blk :: rest)
            = handleAssistantEvent (handleAssistantBlock st blk) rest := rfl
        rw [this, h', h]
      · right
        exact h'
    · right
      have : handleAssistantEvent st (blk :: rest)
          = handleAssistantEvent (handleAssistantBlock st blk) rest := rfl
      rw [this]
      exact handleAssistantEvent_keeps_waiting rest _ h

theorem handleUserBlock_status (stdout : Option String) (st : StreamState)
    (blk : ContentBlock) : (handleUserBlock stdout st blk).status = st.status := by
  cases blk <;> rfl

theorem handleUserEvent_status (content : List ContentBlock) (stdout : Option String) :
    ∀ st : StreamState, (handleUserEvent st content stdout).status = st.status := by
  induction content with
  | nil =>
    intro st
    rfl
  | cons blk rest ih =>
    intro st
    have : handleUserEvent st (blk :: rest) stdout
        = handleUserEvent (handleUserBlock stdout st blk) rest stdout := rfl
    rw [this, ih, handleUserBlock_status]

/-- C6 (amended): while a session is running (reported `working`), an
assistant `AskUserQuestion` tool use moves it to `waiting_input` with a
`needs_attention` report; from `waiting_input`, `sendToolResult` with
any tool-use id — the id is written through without being checked
against the pending question's id — returns the status to `running`
with a `working` report, and it is the only operation whose result
status is `running`. -/
theorem c6_ask_user_question_flow (st : StreamState) (input tid : String)
    (_hrun : st.status = StreamSessionStatus.running) :
    (handleAssistantBlock st (ContentBlock.toolUse "AskUserQuestion" input tid)).status
      = StreamSessionStatus.waiting_input
    ∧ (handleAssistantBlock st (ContentBlock.toolUse "AskUserQuestion" input tid)).statusEmits
      = st.statusEmits ++ [SessionStatus.needs_attention]
    ∧ (∀ (s : StreamState) (i r : String) (e : Bool),
        s.status = StreamSessionStatus.waiting_input →
        s.processSet = true → s.stdinWritable = true →
        (sendToolResult s i r e).status = StreamSessionStatus.running
        ∧ (sendToolResult s i r e).statusEmits = s.statusEmits ++ [SessionStatus.working]
        ∧ (sendToolResult s i r e).stdinWrites
          = s.stdinWrites ++ [StdinMessage.toolResultMsg i r e])
    ∧ (∀ (s : StreamState) (op : SessionOp),
        s.status = StreamSessionStatus.waiting_input →
        (∀ i r e, op ≠ SessionOp.sendTool i r e) →
        (stepOp s op).status ≠ StreamSessionStatus.running) := by
  refine ⟨handleAssistantBlock_ask st input tid, ?_, ?_, ?_⟩
  · simp [handleAssistantBlock, emitStatus, addEvent, freshUuid]
  · intro s i r e hw hp hwr
    refine ⟨?_, ?_, ?_⟩ <;> simp [sendToolResult, hp, hwr, hw, emitStatus]
  · intro s op hw hop
    cases op with
    | event ev =>
      cases ev with
      | system sid m =>
        have : (handleEvent s (StreamJsonEvent.system sid m)).status = s.status := rfl
        rw [stepOp, this, hw]
        intro hcon
        exact StreamSessionStatus.noConfusion hcon
      | assistant c =>
        rw [stepOp, handleEvent]
        rcases handleAssistantEvent_status c s with h | h <;> rw [h]
        · rw [hw]
          intro hcon
          exact StreamSessionStatus.noConfusion hcon
        · intro hcon
          exact StreamSessionStatus.noConfusion hcon
      | user c o =>
        rw [stepOp, handleEvent, handleUserEvent_status, hw]
        intro hcon
        exact StreamSessionStatus.noConfusion hcon
      | result isErr d c nt =>
        have : (handleEvent s (StreamJsonEvent.result isErr d c nt)).status
            = StreamSessionStatus.completed := rfl
        rw [stepOp, this]
        intro hcon
        exact StreamSessionStatus.noConfusion hcon
      | other =>
        rw [stepOp, handleEvent, hw]
        intro hcon
        exact StreamSessionStatus.noConfusion hcon
    | procError =>
      rw [stepOp, handleError]
      intro hcon
      exact StreamSessionStatus.noConfusion hcon
    | procExit c =>
      have hne : s.status ≠ StreamSessionStatus.completed := by
        rw [hw]
        intro hcon
        exact StreamSessionStatus.noConfusion hcon
      by_cases h0 : c = 0 <;> simp [stepOp, handleExit, hne, h0]
    | sendUser c =>
      rw [stepOp, sendUserMessage_status, hw]
      intro hcon
      exact StreamSessionStatus.noConfusion hcon
    | sendTool i r e => exact absurd rfl (hop i r e)
    | kill =>
      rw [stepOp, kill_status, hw]
      intro hcon
      exact StreamSessionStatus.noConfusion hcon

/-- The state of a freshly started session right after the backend
asked an interactive question whose tool-use id is q1. -/
def demoWaitingState : StreamState :=
  handleEvent (start "s" "p" 0)
    (StreamJsonEvent.assistant [ContentBlock.toolUse "AskUserQuestion" "q" "q1"])

/-- C6 counterexample: the pending question's tool-use id is q1, yet a
tool result keyed by a different id also unblocks the session — the id
is never compared with the pending tool use, so the matching
tool-result message is not the only operation that unblocks
`waiting_input`. -/
theorem c6_unmatched_tool_result_counterexample :
    demoWaitingState.status = StreamSessionStatus.waiting_input
    ∧ demoWaitingState.events.map (fun e => e.toolId) = [some "q1"]
    ∧ (sendToolResult demoWaitingState "not-q1" "answer" false).status
      = StreamSessionStatus.running
    ∧ (sendToolResult demoWaitingState "not-q1" "answer" false).statusEmits
      = demoWaitingState.statusEmits ++ [SessionStatus.working] := by decide

theorem c6_ask_user_question_flow_witness :
    ((start "s" "p" 0).status = StreamSessionStatus.running)
    ∧ ((handleAssistantBlock (start "s" "p" 0)
          (ContentBlock.toolUse "AskUserQuestion" "q" "q1")).status
        = StreamSessionStatus.waiting_input
      ∧ (handleAssistantBlock (start "s" "p" 0)
          (ContentBlock.toolUse "AskUserQuestion" "q" "q1")).statusEmits
        = (start "s" "p" 0).statusEmits ++ [SessionStatus.needs_attention]
      ∧ (∀ (s : StreamState) (i r : String) (e : Bool),
          s.status = StreamSessionStatus.waiting_input →
          s.processSet = true → s.stdinWritable = true →
          (sendToolResult s i r e).status = StreamSessionStatus.running
          ∧ (sendToolResult s i r e).statusEmits = s.statusEmits ++ [SessionStatus.working]
          ∧ (sendToolResult s i r e).stdinWrites
            = s.stdinWrites ++ [StdinMessage.toolResultMsg i r e])
      ∧ (∀ (s : StreamState) (op : SessionOp),
          s.status = StreamSessionStatus.waiting_input →
          (∀ i r e, op ≠ SessionOp.sendTool i r e) →
          (stepOp s op).status ≠ StreamSessionStatus.running)) :=
  ⟨by decide, c6_ask_user_question_flow (start "s" "p" 0) "q" "q1" (by decide)⟩

theorem handleAssistantBlock_emits (st : StreamState) (blk : ContentBlock) :
    ∃ new, (handleAssistantBlock st blk).statusEmits = st.statusEmits ++ new := by
  cases blk with
  | text s => exact ⟨[], (List.append_nil _).symm⟩
  | toolUse name input tid =>
    by_cases h : name = "AskUserQuestion"
    · refine ⟨[SessionStatus.needs_attention], ?_⟩
      simp [handleAssistantBlock, h, emitStatus, addEvent, freshUuid]
    · refine ⟨[], ?_⟩
      simp [handleAssistantBlock, h, addEvent, freshUuid]
  | toolResult i c e => exact ⟨[], (List.append_nil _).symm⟩
  | otherBlock => exact ⟨[], (List.append_nil _).symm⟩

theorem handleAssistantEvent_emits (content : List ContentBlock) :
    ∀ st : StreamState, ∃ new,
      (handleAssistantEvent st content).statusEmits = st.statusEmits ++ new := by
  induction content with
  | nil =>
    intro st
    exact ⟨[], (List.append_nil _).symm⟩
  | cons blk rest ih =>
    intro st
    obtain ⟨n1, h1⟩ := handleAssistantBlock_emits st blk
    obtain ⟨n2, h2⟩ := ih (handleAssistantBlock st blk)
    refine ⟨n1 ++ n2, ?_⟩
    have : handleAssistantEvent st (blk :: rest)
        = handleAssistantEvent (handleAssistantBlock st blk) rest := rfl
    rw [this, h2, h1, List.append_assoc]

theorem handleUserBlock_emits (stdout : Option String) (st : StreamState)
    (blk : ContentBlock) :
    (handleUserBlock stdout st blk).statusEmits = st.statusEmits := by
  cases blk <;> rfl

theorem handleUserEvent_emits (content : List ContentBlock) (stdout : Option String) :
    ∀ st : StreamState,
      (handleUserEvent st content stdout).statusEmits = st.statusEmits := by
  induction content with
  | nil =>
    intro st
    rfl
  | cons blk rest ih =>
    intro st
    have : handleUserEvent st (blk :: rest) stdout
        = handleUserEvent (handleUserBlock stdout st blk) rest stdout := rfl
    rw [this, ih, handleUserBlock_emits]

theorem stepOp_emits (st : StreamState) (op : SessionOp) :
    ∃ new, (stepOp st op).statusEmits = st.statusEmits ++ new := by
  cases op with
  | event ev =>
    cases ev with
    | system sid m => exact ⟨[], (List.append_nil _).symm⟩
    | assistant c => exact handleAssistantEvent_emits c st
    | user c o =>
      refine ⟨[], ?_⟩
      rw [stepOp, handleEvent, handleUserEvent_emits, List.append_nil]
    | result isErr d c nt => exact ⟨[SessionStatus.idle], rfl⟩
    | other => exact ⟨[], (List.append_nil _).symm⟩
  | procError => exact ⟨[SessionStatus.idle], rfl⟩
  | procExit c =>
    refine ⟨[], ?_⟩
    rw [List.append_nil]
    simp only [stepOp, handleExit]
    split_ifs <;> rfl
  | sendUser c =>
    refine ⟨[], ?_⟩
    rw [List.append_nil]
    simp only [stepOp, sendUserMessage]
    split_ifs <;> rfl
  | sendTool i r e =>
    by_cases h1 : st.processSet && st.stdinWritable
    · by_cases h2 : st.status = StreamSessionStatus.waiting_input
      · refine ⟨[SessionStatus.working], ?_⟩
        simp [stepOp, sendToolResult, h1, h2, emitStatus]
      · refine ⟨[], ?_⟩
        simp [stepOp, sendToolResult, h1, h2]
    · refine ⟨[], ?_⟩
      simp [stepOp, sendToolResult, h1]
  | kill =>
    refine ⟨[], ?_⟩
    rw [List.append_nil]
    simp only [stepOp, kill]
    split_ifs <;> rfl

theorem runOps_emits (ops : List SessionOp) :
    ∀ st : StreamState, ∃ new,
      (runOps st ops).statusEmits = st.statusEmits ++ new := by
  induction ops with
  | nil =>
    intro st
    exact ⟨[], (List.append_nil _).symm⟩
  | cons op rest ih =>
    intro st
    obtain ⟨n1, h1⟩ := stepOp_emits st op
    obtain ⟨n2, h2⟩ := ih (stepOp st op)
    refine ⟨n1 ++ n2, ?_⟩
    have : runOps st (op :: rest) = runOps (stepOp st op) rest := rfl
    rw [this, h2, h1, List.append_assoc]

/-- C7 (amended): the status trace a started session emits always
begins with the `working` reported by `start`, so `needs_attention` is
never emitted before a first `working`; the stronger adjacency
invariant of the status table — no `idle` immediately followed by
`needs_attention` — is not enforced by the code, see the
counterexample. -/
theorem c7_trace_starts_with_working (name prompt : String) (now : Int)
    (ops : List SessionOp) :
    (runOps (start name prompt now) ops).statusEmits.head?
      = some SessionStatus.working := by
  obtain ⟨new, hnew⟩ := runOps_emits ops (start name prompt now)
  rw [hnew]
  have hstart : (start name prompt now).statusEmits = [SessionStatus.working] := rfl
  rw [hstart]
  rfl

/-- Does the trace contain `idle` immediately followed by
`needs_attention` (the transition the spec's status table forbids)? -/
def hasIdleThenNeedsAttention : List SessionStatus → Bool
  | SessionStatus.idle :: SessionStatus.needs_attention :: _ => true
  | _ :: rest => hasIdleThenNeedsAttention rest
  | [] => false

/-- C7 counterexample: a session can emit `idle` immediately followed
by `needs_attention` with no intervening `working`: a `result` event
(reported `idle`) followed by a late assistant `AskUserQuestion` tool
use (reported `needs_attention`). -/
theorem c7_idle_then_needs_attention_counterexample :
    (runOps (start "s" "p" 0)
        [SessionOp.event (StreamJsonEvent.result false 1 0 1),
         SessionOp.event (StreamJsonEvent.assistant
           [ContentBlock.toolUse "AskUserQuestion" "q" "q1"])]).statusEmits
      = [SessionStatus.working, SessionStatus.idle, SessionStatus.needs_attention]
    ∧ hasIdleThenNeedsAttention
        (runOps (start "s" "p" 0)
          [SessionOp.event (StreamJsonEvent.result false 1 0 1),
           SessionOp.event (StreamJsonEvent.assistant
             [ContentBlock.toolUse "AskUserQuestion" "q" "q1"])]).statusEmits
      = true := by decide

/-- The metrics a heartbeat may carry (model / cost / context-window
fields; REAL values modelled as integers). -/
structure HeartbeatMetrics where
  modelId : Option String := none
  totalCostUsd : Option Int := none
  totalDurationMs : Option Int := none
  contextWindowSize : Option Int := none
deriving DecidableEq

/-- A POST /api/heartbeat request body. -/
structure HeartbeatRequest where
  tmux_session : Option String := none
  cwd : Option String := none
  metrics : Option HeartbeatMetrics := none
deriving DecidableEq

/-- The agent state the heartbeat route can observe or mutate: the
OS-level tmux sessions `tmux has-session` confirms, the status-history
rows, and the per-session `lastHeartbeatAt` and metrics. -/
structure AgentState where
  liveTmuxSessions : List String := []
  statusHistory : List (String × String × Int) := []
  lastHeartbeatAt : List (String × Int) := []
  sessionMetrics : List (String × HeartbeatMetrics) := []
deriving DecidableEq

/-- Insert-or-replace in an association list keyed by session name. -/
def upsert {α : Type} (k : String) (v : α) : List (String × α) → List (String × α)
  | [] => [(k, v)]
  | (k', v') :: rest => if k' = k then (k, v) :: rest else (k', v') :: upsert k v rest

/-- Modelled from the spec: the POST /api/heartbeat route handler
(`apps/agent/src/server.ts` and its routes) is not among the sources —
only its unit tests are.  Per spec sections 4.5, 6 and 7 and the tests:
a missing `tmux_session` field fails the request with 400; an
identifier `tmux has-session` cannot confirm is rejected with 404 as a
ghost before any side effect, even when the request carries full
metrics; only a verified-live session has `lastHeartbeatAt` updated and
its accompanying metrics accepted, with 200. -/
def heartbeatHandler (st : AgentState) (req : HeartbeatRequest) (now : Int) :
    Nat × AgentState :=
  match req.tmux_session with
  | none => (400, st)
  | some sid =>
    if st.liveTmuxSessions.contains sid then
      (200, { st with
        lastHeartbeatAt := upsert sid now st.lastHeartbeatAt,
        sessionMetrics :=
          match req.metrics with
          | some m => upsert sid m st.sessionMetrics
          | none => st.sessionMetrics })
    else (404, st)

/-- C1: a heartbeat without the session-identifier field gets 400 and
changes nothing; one naming a session that does not exist at the OS
level gets 404 and changes nothing — no status-history row, no metric,
no heartbeat timestamp — even when full metrics accompany it; a
heartbeat for a verified-live session gets 200, updates
`lastHeartbeatAt` and records the metrics while never touching the
status history. -/
theorem c1_heartbeat_ghost_rejection (st : AgentState) (req : HeartbeatRequest)
    (now : Int) :
    (req.tmux_session = none → heartbeatHandler st req now = (400, st))
    ∧ (∀ sid, req.tmux_session = some sid →
        st.liveTmuxSessions.contains sid = false →
        heartbeatHandler st req now = (404, st))
    ∧ (∀ sid, req.tmux_session = some sid →
        st.liveTmuxSessions.contains sid = true →
        (heartbeatHandler st req now).1 = 200
        ∧ (heartbeatHandler st req now).2.lastHeartbeatAt
          = upsert sid now st.lastHeartbeatAt
        ∧ (heartbeatHandler st req now).2.statusHistory = st.statusHistory
        ∧ (heartbeatHandler st req now).2.liveTmuxSessions = st.liveTmuxSessions) := by
  refine ⟨?_, ?_, ?_⟩
  · intro h
    rw [heartbeatHandler, h]
  · intro sid hsid hlive
    rw [heartbeatHandler, hsid]
    simp at hlive
    simp [hlive]
  · intro sid hsid hlive
    rw [heartbeatHandler, hsid]
    simp at hlive
    refine ⟨?_, ?_, ?_, ?_⟩ <;> simp [hlive]

/-- A concrete agent state with a single confirmed-live tmux session. -/
def demoAgentState : AgentState := { liveTmuxSessions := ["p--alive-1"] }

theorem c1_heartbeat_ghost_rejection_witness :
    (heartbeatHandler demoAgentState { tmux_session := none } 7
      = (400, demoAgentState))
    ∧ (heartbeatHandler demoAgentState
        { tmux_session := some "p--ghost-9",
          metrics := some { totalCostUsd := some 2 } } 7 = (404, demoAgentState))
    ∧ ((heartbeatHandler demoAgentState { tmux_session := some "p--alive-1" } 7).1 = 200
      ∧ (heartbeatHandler demoAgentState
          { tmux_session := some "p--alive-1" } 7).2.lastHeartbeatAt
        = [("p--alive-1", 7)]
      ∧ (heartbeatHandler demoAgentState
          { tmux_session := some "p--alive-1" } 7).2.statusHistory
        = demoAgentState.statusHistory) := by
  refine ⟨?_, ?_, ?_, ?_, ?_⟩
  · exact (c1_heartbeat_ghost_rejection demoAgentState
      { tmux_session := none } 7).1 rfl
  · exact (c1_heartbeat_ghost_rejection demoAgentState
      { tmux_session := some "p--ghost-9",
        metrics := some { totalCostUsd := some 2 } } 7).2.1 "p--ghost-9" rfl (by decide)
  · exact ((c1_heartbeat_ghost_rejection demoAgentState
      { tmux_session := some "p--alive-1" } 7).2.2 "p--alive-1" rfl (by decide)).1
  · have h := ((c1_heartbeat_ghost_rejection demoAgentState
      { tmux_session := some "p--alive-1" } 7).2.2 "p--alive-1" rfl (by decide)).2.1
    rw [h]
    decide
  · exact ((c1_heartbeat_ghost_rejection demoAgentState
      { tmux_session := some "p--alive-1" } 7).2.2 "p--alive-1" rfl (by decide)).2.2.1

/-- An Environment row: id, name, provider label, optional icon,
default flag and the variable mapping.  `randomUUID` ids are modelled
as counter-assigned numbers. -/
structure Environment where
  id : Nat
  name : String
  provider : String
  icon : Option String := none
  isDefault : Bool := false
  vars : List (String × String) := []
deriving DecidableEq

/-- The `environments` table with the id counter. -/
structure EnvDb where
  envs : List Environment := []
  nextId : Nat := 0
deriving DecidableEq

/-- The `createEnvironment` input. -/
structure CreateEnvironmentInput where
  name : String
  provider : String
  icon : Option String := none
  vars : List (String × String) := []
  isDefault : Option Bool := none
deriving DecidableEq

/-- The `updateEnvironment` changes: absent fields are left alone;
supplied variables are merged into the existing mapping. -/
structure UpdateEnvironmentInput where
  name : Option String := none
  provider : Option String := none
  icon : Option String := none
  vars : Option (List (String × String)) := none
  isDefault : Option Bool := none
deriving DecidableEq

/-- Modelled from the spec: `apps/agent/src/db/environments` is not
among the sources — only its unit tests are.  `createEnvironment` per
spec section 3 and the tests: the first environment created becomes
the default automatically; creating one as default unsets every
previous default in the same operation. -/
def createEnvironment (db : EnvDb) (input : CreateEnvironmentInput) :
    EnvDb × Environment :=
  let isDef := if db.envs.isEmpty then true else input.isDefault.getD false
  let cleared := if isDef then db.envs.map (fun e => { e with isDefault := false })
    else db.envs
  let env : Environment :=
    { id := db.nextId, name := input.name,
      provider := input.provider, icon := input.icon, isDefault := isDef,
      vars := input.vars }
  ({ envs := cleared ++ [env], nextId := db.nextId + 1 }, env)

/-- Merging the supplied variables into the existing mapping. -/
def mergeVars (old : List (String × String)) (new : List (String × String)) :
    List (String × String) :=
  new.foldl (fun acc kv => upsert kv.1 kv.2 acc) old

/-- The per-row effect of an update. -/
def applyUpdate (input : UpdateEnvironmentInput) (e : Environment) : Environment :=
  { e with
    name := input.name.getD e.name
    provider := input.provider.getD e.provider
    icon := match input.icon with
      | some i => some i
      | none => e.icon
    vars := match input.vars with
      | some vs => mergeVars e.vars vs
      | none => e.vars
    isDefault := input.isDefault.getD e.isDefault }

/-- The per-row effect of `updateEnvironment` on the whole table: the
target row gets the changes; when the changes set the default flag,
every other row loses it. -/
def updateRow (id : Nat) (input : UpdateEnvironmentInput) (e : Environment) :
    Environment :=
  if e.id = id then applyUpdate input e
  else if input.isDefault = some true then { e with isDefault := false }
  else e

/-- Modelled from the spec: `updateEnvironment` (not among the
sources, see `createEnvironment`) returns none for an unknown id; per
spec section 3 and the tests, updating an environment with
`isDefault: true` unsets every other default in the same operation. -/
def updateEnvironment (db : EnvDb) (id : Nat) (input : UpdateEnvironmentInput) :
    EnvDb × Option Environment :=
  match db.envs.find? (fun e => e.id == id) with
  | none => (db, none)
  | some _ =>
    let newEnvs := db.envs.map (updateRow id input)
    ({ db with envs := newEnvs }, newEnvs.find? (fun e => e.id == id))

/-- Modelled from the spec: `deleteEnvironment` (not among the
sources, see `createEnvironment`) returns false for an unknown id; per
spec section 3 and the tests, deleting the default environment
promotes another remaining environment (here the first) to default. -/
def deleteEnvironment (db : EnvDb) (id : Nat) : EnvDb × Bool :=
  match db.envs.find? (fun e => e.id == id) with
  | none => (db, false)
  | some e0 =>
    let rest := db.envs.filter (fun e => !(e.id == id))
    if e0.isDefault then
      match rest with
      | [] => ({ db with envs := [] }, true)
      | f :: rs => ({ db with envs := { f with isDefault := true } :: rs }, true)
    else ({ db with envs := rest }, true)

/-- The operations the environments store exposes. -/
inductive EnvOp
  | create (input : CreateEnvironmentInput)
  | update (id : Nat) (input : UpdateEnvironmentInput)
  | delete (id : Nat)
deriving DecidableEq

/-- The state effect of one operation. -/
def applyEnvOp (db : EnvDb) : EnvOp → EnvDb
  | EnvOp.create input => (createEnvironment db input).1
  | EnvOp.update id input => (updateEnvironment db id input).1
  | EnvOp.delete id => (deleteEnvironment db id).1

/-- A run of the store from the empty table. -/
def runEnvOps (ops : List EnvOp) : EnvDb :=
  ops.foldl applyEnvOp {}

/-- How many environments carry the default flag. -/
def defaultCount (db : EnvDb) : Nat :=
  db.envs.countP (fun e => e.isDefault)

/-- The environments invariant: ids strictly increase (and stay below
the counter), and at most one row is default. -/
def EnvDb.Inv (db : EnvDb) : Prop :=
  db.envs.Pairwise (fun a b => a.id < b.id)
  ∧ (∀ e ∈ db.envs, e.id < db.nextId)
  ∧ defaultCount db ≤ 1

theorem countP_id_le_one {l : List Environment}
    (h : l.Pairwise (fun a b => a.id < b.id)) (i : Nat) :
    l.countP (fun e => e.id == i) ≤ 1 := by
  induction l with
  | nil => simp
  | cons x xs ih =>
    obtain ⟨hx, hxs⟩ := List.pairwise_cons.mp h
    rw [List.countP_cons]
    by_cases hxid : x.id = i
    · have hz : xs.countP (fun e => e.id == i) = 0 := by
        rw [List.countP_eq_zero]
        intro a ha
        have hlt := hx a ha
        simp only [beq_iff_eq]
        omega
      rw [hz]
      simp [hxid]
    · simp only [beq_iff_eq, hxid, if_false]
      exact ih hxs

theorem rest_not_default {l : List Environment}
    (hcount : l.countP (fun e => e.isDefault) ≤ 1)
    {e0 : Environment} (he0 : e0 ∈ l) (hd0 : e0.isDefault = true) :
    ∀ a ∈ l, a.id ≠ e0.id → a.isDefault = false := by
  induction l with
  | nil =>
    intro a ha
    simp at ha
  | cons x xs ih =>
    intro a ha hne
    rw [List.countP_cons] at hcount
    rcases List.mem_cons.mp he0 with he | he
    · rcases List.mem_cons.mp ha with h | h
      · rw [h, he] at hne
        exact absurd rfl hne
      · have hx1 : x.isDefault = true := by
          rw [he] at hd0
          exact hd0
        simp only [hx1, if_true] at hcount
        have hz : xs.countP (fun e => e.isDefault) = 0 := by omega
        rw [List.countP_eq_zero] at hz
        have := hz a h
        simpa using this
    · rcases List.mem_cons.mp ha with h | h
      · subst h
        cases hx : a.isDefault with
        | false => rfl
        | true =>
          have hpos : 0 < xs.countP (fun e => e.isDefault) :=
            List.countP_pos_iff.mpr ⟨e0, he, hd0⟩
          simp only [hx, if_true] at hcount
          omega
      · have hcount' : xs.countP (fun e => e.isDefault) ≤ 1 := by omega
        exact ih hcount' he a h hne

theorem inv_createEnvironment (db : EnvDb) (h : db.Inv)
    (input : CreateEnvironmentInput) : (createEnvironment db input).1.Inv := by
  obtain ⟨hpair, hlt, hcount⟩ := h
  rw [EnvDb.Inv, defaultCount]
  simp only [createEnvironment]
  generalize (if db.envs.isEmpty = true then true else input.isDefault.getD false) = d
  cases d with
  | true =>
    simp only [eq_self_iff_true, if_true]
    refine ⟨?_, ?_, ?_⟩
    · rw [List.pairwise_append]
      refine ⟨?_, List.pairwise_singleton _ _, ?_⟩
      · rw [List.pairwise_map]
        exact hpair
      · intro a ha b hb
        rw [List.mem_singleton] at hb
        subst hb
        obtain ⟨c, hc, hca⟩ := List.mem_map.mp ha
        rw [← hca]
        exact hlt c hc
    · intro e he
      rcases List.mem_append.mp he with he | he
      · obtain ⟨c, hc, hca⟩ := List.mem_map.mp he
        rw [← hca]
        exact Nat.lt_succ_of_lt (hlt c hc)
      · rw [List.mem_singleton] at he
        subst he
        exact Nat.lt_succ_self _
    · rw [List.countP_append]
      have h0 : (db.envs.map (fun e => { e with isDefault := false })).countP
          (fun e => e.isDefault) = 0 := by
        rw [List.countP_map, List.countP_eq_zero]
        intro a _
        simp
      rw [h0, List.countP_cons]
      simp
  | false =>
    simp only [Bool.false_eq_true, if_false]
    refine ⟨?_, ?_, ?_⟩
    · rw [List.pairwise_append]
      refine ⟨hpair, List.pairwise_singleton _ _, ?_⟩
      intro a ha b hb
      rw [List.mem_singleton] at hb
      subst hb
      exact hlt a ha
    · intro e he
      rcases List.mem_append.mp he with he | he
      · exact Nat.lt_succ_of_lt (hlt e he)
      · rw [List.mem_singleton] at he
        subst he
        exact Nat.lt_succ_self _
    · rw [List.countP_append, List.countP_cons]
      simp only [List.countP_nil, Bool.false_eq_true, if_false]
      rw [defaultCount] at hcount
      omega



theorem applyUpdate_isDefault (input : UpdateEnvironmentInput) (x : Environment) :
    (applyUpdate input x).isDefault = input.isDefault.getD x.isDefault := rfl

theorem updateRow_id (i : Nat) (input : UpdateEnvironmentInput) (e : Environment) :
    (updateRow i input e).id = e.id := by
  rw [updateRow]
  split_ifs <;> rfl

theorem updateRow_default_le (i : Nat) (input : UpdateEnvironmentInput)
    (hne : input.isDefault ≠ some true) (x : Environment) :
    (updateRow i input x).isDefault = true → x.isDefault = true := by
  rw [updateRow]
  split_ifs with h1
  · rw [applyUpdate_isDefault]
    cases hdef : input.isDefault with
    | none =>
      intro hx
      simpa using hx
    | some b =>
      cases b with
      | true => exact absurd hdef hne
      | false =>
        intro hx
        simp at hx
  · exact id

theorem inv_updateEnvironment (db : EnvDb) (h : db.Inv) (i : Nat)
    (input : UpdateEnvironmentInput) : (updateEnvironment db i input).1.Inv := by
  obtain ⟨hpair, hlt, hcount⟩ := h
  cases hfind : db.envs.find? (fun e => e.id == i) with
  | none =>
    simp only [updateEnvironment, hfind]
    exact ⟨hpair, hlt, hcount⟩
  | some e0 =>
    simp only [updateEnvironment, hfind]
    refine ⟨?_, ?_, ?_⟩
    · rw [List.pairwise_map]
      exact hpair.imp (fun hab => by rw [updateRow_id, updateRow_id]; exact hab)
    · intro e he
      obtain ⟨b, hb, hbe⟩ := List.mem_map.mp he
      rw [← hbe, updateRow_id]
      exact hlt b hb
    · rw [defaultCount]
      simp only [List.countP_map]
      by_cases hdef : input.isDefault = some true
      · have hle : db.envs.countP ((fun e => e.isDefault) ∘ updateRow i input)
            ≤ db.envs.countP (fun e => e.id == i) := by
          apply List.countP_mono_left
          intro x _ hx
          simp only [Function.comp_apply, updateRow] at hx
          by_cases hid : x.id = i
          · simp [hid]
          · rw [if_neg hid, if_pos hdef] at hx
            simp at hx
        exact le_trans hle (countP_id_le_one hpair i)
      · have hle : db.envs.countP ((fun e => e.isDefault) ∘ updateRow i input)
            ≤ db.envs.countP (fun e => e.isDefault) := by
          apply List.countP_mono_left
          intro x _ hx
          exact updateRow_default_le i input hdef x hx
        rw [defaultCount] at hcount
        exact le_trans hle hcount

theorem inv_deleteEnvironment (db : EnvDb) (h : db.Inv) (i : Nat) :
    (deleteEnvironment db i).1.Inv := by
  obtain ⟨hpair, hlt, hcount⟩ := h
  cases hfind : db.envs.find? (fun e => e.id == i) with
  | none =>
    simp only [deleteEnvironment, hfind]
    exact ⟨hpair, hlt, hcount⟩
  | some e0 =>
    simp only [deleteEnvironment, hfind]
    have he0mem : e0 ∈ db.envs := List.mem_of_find?_eq_some hfind
    have he0id : e0.id = i := by
      have := List.find?_some hfind
      simpa using this
    have hsub : (db.envs.filter (fun e => !(e.id == i))).Sublist db.envs :=
      List.filter_sublist db.envs
    by_cases hd0 : e0.isDefault
    · have hrest0 : ∀ a ∈ db.envs.filter (fun e => !(e.id == i)),
          a.isDefault = false := by
        intro a ha
        obtain ⟨hamem, hapred⟩ := List.mem_filter.mp ha
        have hane : a.id ≠ e0.id := by
          simp at hapred
          rw [he0id]
          exact hapred
        exact rest_not_default hcount he0mem hd0 a hamem hane
      rw [if_pos hd0]
      cases hrest : db.envs.filter (fun e => !(e.id == i)) with
      | nil =>
        refine ⟨List.Pairwise.nil, ?_, ?_⟩
        · intro e he
          simp at he
        · rw [defaultCount]
          simp
      | cons f rs =>
        have hpf : (f :: rs).Pairwise (fun a b => a.id < b.id) := by
          rw [← hrest]
          exact hpair.filter _
        obtain ⟨hf, hrs⟩ := List.pairwise_cons.mp hpf
        have hmem : ∀ e ∈ f :: rs, e ∈ db.envs := by
          intro e he
          rw [← hrest] at he
          exact hsub.subset he
        refine ⟨?_, ?_, ?_⟩
        · rw [List.pairwise_cons]
          exact ⟨fun b hb => hf b hb, hrs⟩
        · intro e he
          rcases List.mem_cons.mp he with he | he
          · subst he
            exact hlt f (hmem f (List.mem_cons_self f rs))
          · exact hlt e (hmem e (List.mem_cons_of_mem f he))
        · rw [defaultCount]
          simp only [List.countP_cons]
          have hrs0 : rs.countP (fun e => e.isDefault) = 0 := by
            rw [List.countP_eq_zero]
            intro a ha
            have := hrest0 a (by rw [hrest]; exact List.mem_cons_of_mem f ha)
            simp [this]
          rw [hrs0]
          simp
    · rw [if_neg hd0]
      refine ⟨hpair.filter _, ?_, ?_⟩
      · intro e he
        exact hlt e (hsub.subset he)
      · rw [defaultCount] at hcount ⊢
        exact le_trans (hsub.countP_le _) hcount

/-- Every table reachable by a run of the store from empty satisfies
the invariant: ids strictly increase and at most one row is default. -/
theorem inv_runEnvOps (ops : List EnvOp) : (runEnvOps ops).Inv := by
  have hstep : ∀ (db : EnvDb) (op : EnvOp), db.Inv → (applyEnvOp db op).Inv := by
    intro db op h
    cases op with
    | create input => exact inv_createEnvironment db h input
    | update i input => exact inv_updateEnvironment db h i input
    | delete i => exact inv_deleteEnvironment db h i
  have hfold : ∀ (l : List EnvOp) (db : EnvDb), db.Inv → (l.foldl applyEnvOp db).Inv := by
    intro l
    induction l with
    | nil => exact fun _ h => h
    | cons op rest ih => exact fun db h => ih _ (hstep db op h)
  refine hfold ops {} ⟨List.Pairwise.nil, ?_, ?_⟩
  · intro e he
    simp at he
  · rw [defaultCount]
    simp

/-- C8: at most one environment carries `isDefault = true` at any time
(in every table reachable from empty by create/update/delete); the
first environment created becomes default automatically; creating or
updating an environment with `isDefault: true` unsets every other
default in the same operation; deleting the default environment
promotes another remaining environment to default. -/
theorem c8_environment_default_invariant :
    (∀ ops : List EnvOp, defaultCount (runEnvOps ops) ≤ 1)
    ∧ (∀ (db : EnvDb) (input : CreateEnvironmentInput), db.envs = [] →
        (createEnvironment db input).2.isDefault = true)
    ∧ (∀ (db : EnvDb) (input : CreateEnvironmentInput),
        input.isDefault = some true →
        ∀ e ∈ (createEnvironment db input).1.envs,
          e.id ≠ (createEnvironment db input).2.id → e.isDefault = false)
    ∧ (∀ (db : EnvDb) (i : Nat) (input : UpdateEnvironmentInput) (e0 : Environment),
        db.envs.find? (fun e => e.id == i) = some e0 →
        input.isDefault = some true →
        ∀ e ∈ (updateEnvironment db i input).1.envs, e.id ≠ i → e.isDefault = false)
    ∧ (∀ (db : EnvDb) (i : Nat) (e0 : Environment),
        db.envs.find? (fun e => e.id == i) = some e0 →
        e0.isDefault = true →
        (deleteEnvironment db i).1.envs ≠ [] →
        ∃ e ∈ (deleteEnvironment db i).1.envs, e.isDefault = true) := by
  refine ⟨fun ops => (inv_runEnvOps ops).2.2, ?_, ?_, ?_, ?_⟩
  · intro db input h
    simp [createEnvironment, h]
  · intro db input hdef e he hne
    have hisdef : (if db.envs.isEmpty = true then true else input.isDefault.getD false)
        = true := by
      by_cases hemp : db.envs.isEmpty <;> simp [hemp, hdef]
    simp only [createEnvironment, hisdef, eq_self_iff_true, if_true] at he hne
    rcases List.mem_append.mp he with he | he
    · obtain ⟨b, _, hbe⟩ := List.mem_map.mp he
      rw [← hbe]
    · rw [List.mem_singleton] at he
      subst he
      exact absurd rfl hne
  · intro db i input e0 hfind hdef e he hne
    simp only [updateEnvironment, hfind] at he
    obtain ⟨b, hb, hbe⟩ := List.mem_map.mp he
    by_cases hid : b.id = i
    · rw [← hbe, updateRow_id] at hne
      exact absurd hid hne
    · rw [← hbe, updateRow, if_neg hid, if_pos hdef]
  · intro db i e0 hfind hd0 hne
    simp only [deleteEnvironment, hfind] at hne ⊢
    rw [if_pos hd0] at hne ⊢
    cases hrest : db.envs.filter (fun e => !(e.id == i)) with
    | nil =>
      rw [hrest] at hne
      exact absurd rfl hne
    | cons f rs =>
      exact ⟨{ f with isDefault := true }, List.mem_cons_self _ _, rfl⟩

/-- The scenario: create two environments, the second as default, then
delete the default. -/
def demoEnvOps : List EnvOp :=
  [EnvOp.create { name := "First", provider := "anthropic" },
   EnvOp.create { name := "Second", provider := "openai", isDefault := some true },
   EnvOp.delete 1]

/-- One environment (First) created from the empty table. -/
def demoEnvDb1 : EnvDb :=
  (createEnvironment {} { name := "First", provider := "anthropic" }).1

/-- Two environments; the second (Second, id 1) is the default. -/
def demoEnvDb2 : EnvDb :=
  (createEnvironment demoEnvDb1
    { name := "Second", provider := "openai", isDefault := some true }).1

theorem c8_environment_default_invariant_witness :
    defaultCount (runEnvOps demoEnvOps) ≤ 1
    ∧ (createEnvironment ({} : EnvDb)
        { name := "First", provider := "anthropic" }).2.isDefault = true
    ∧ (∀ e ∈ (createEnvironment demoEnvDb1
          { name := "Second", provider := "openai", isDefault := some true }).1.envs,
        e.id ≠ (createEnvironment demoEnvDb1
          { name := "Second", provider := "openai", isDefault := some true }).2.id →
        e.isDefault = false)
    ∧ (∀ e ∈ (updateEnvironment demoEnvDb2 0 { isDefault := some true }).1.envs,
        e.id ≠ 0 → e.isDefault = false)
    ∧ (∃ e ∈ (deleteEnvironment demoEnvDb2 1).1.envs, e.isDefault = true) :=
  ⟨c8_environment_default_invariant.1 demoEnvOps,
   c8_environment_default_invariant.2.1 {} { name := "First", provider := "anthropic" } rfl,
   c8_environment_default_invariant.2.2.1 demoEnvDb1
     { name := "Second", provider := "openai", isDefault := some true } rfl,
   c8_environment_default_invariant.2.2.2.1 demoEnvDb2 0 { isDefault := some true }
     { id := 0, name := "First", provider := "anthropic", icon := none,
       isDefault := false, vars := [] } (by decide) rfl,
   c8_environment_default_invariant.2.2.2.2 demoEnvDb2 1
     { id := 1, name := "Second", provider := "openai", icon := none,
       isDefault := true, vars := [] } (by decide) (by decide) (by decide)⟩

end SpecProof
